import Mathlib

/-!
Verification development for the `actix_error_proc` crate.

The crate consists of two procedural macros
(`src/actix_error_proc_macros/src/lib.rs`):

* `derive_actix_error` (lines 59-128) compiles an error enum, annotated
  with optional `http_status` tags per variant and at most one
  `actix_error(transformer = "...")` attribute on the enum, into an
  `Into<HttpResponse>` implementation: one match arm per variant.
* `proof_route` (lines 191-286) compiles a handler function plus a
  `method("path")` argument into a dispatch unit that extracts each typed
  parameter in declaration order, short-circuiting on the first failure,
  honouring per-parameter `#[or(...)]` overrides, and finally invokes the
  renamed business handler.

We embed the syn-level inputs of both macros as plain data, translate the
macro bodies into `Except`-valued Lean functions (a `panic!` in the source
becomes `Except.error` carrying the panic message), and give an executable
runtime semantics to the generated code: `runInto` for the generated match
of `derive_actix_error`, `runRouteFrom` for the extraction pipeline of
`proof_route`.
-/

/-- Literal tokens, as far as the two macros inspect them
(`syn::Lit`: only the string case is distinguished by the source). -/
inductive LitM
  | str (s : String)
  | otherLit
deriving DecidableEq

/-- Expressions, as far as the two macros inspect them (`syn::Expr`):
a path (used for the HTTP method token and for `#[or(...)]` arguments),
a literal, or anything else. -/
inductive ExprM
  | path (s : String)
  | lit (l : LitM)
  | otherExpr
deriving DecidableEq

/-- Attribute arguments parsed as `syn::Meta`: a `name = value` pair,
a bare path, or a parenthesised list. -/
inductive SynMeta
  | nameValue (path : String) (value : ExprM)
  | pathMeta (path : String)
  | listMeta (path : String)
deriving DecidableEq

/-- One attribute as the macros see it: its path identifier and the
results of the `parse_args` calls the source performs on it (`none`
models a `parse_args` that returns `Err`).  `parseArgsMeta` is consumed
for `actix_error` attributes, `parseArgsIdent` for `http_status`
attributes, `parseArgsExpr` for `#[or(...)]` attributes. -/
structure AttrM where
  path : String
  parseArgsMeta : Option SynMeta := none
  parseArgsIdent : Option String := none
  parseArgsExpr : Option ExprM := none
deriving DecidableEq

/-- The shape of a variant's field list (`syn::Fields`). -/
inductive FieldsShape
  | unnamed
  | named
  | unit
deriving DecidableEq

/-- One enum variant: its name, its attributes and its field shape. -/
structure VariantM where
  name : String
  attrs : List AttrM
  fields : FieldsShape
deriving DecidableEq

/-- The enum fed to `derive_actix_error`: name, enum-level attributes and
the ordered variant list (the `Data::Enum` case of `DeriveInput`). -/
structure DeriveInputEnum where
  name : String
  attrs : List AttrM
  variants : List VariantM
deriving DecidableEq

/-- One generated match arm of the `Into<HttpResponse>` implementation:
the variant it matches, the pattern shape used (`Self::V(..)`,
`Self::V { .. }` or `Self::V`), the response-builder identifier
(`actix_web::HttpResponse::<statusIdent>()`), and the transformer name
interpolated into the arm body, if any. -/
structure Arm where
  variantName : String
  shape : FieldsShape
  statusIdent : String
  transformer : Option String
deriving DecidableEq

/-- The generated `impl Into<HttpResponse>`: the enum it is for and its
match arms in variant order. -/
structure GeneratedImpl where
  enumName : String
  arms : List Arm
deriving DecidableEq

/-- Status-builder identifier for one variant
(`src/actix_error_proc_macros/src/lib.rs:96-105`): start from
`InternalServerError`, and for every `http_status` attribute whose
argument parses as an identifier, replace it by that identifier. -/
def http_method (v : VariantM) : String :=
  v.attrs.foldl
    (fun acc attr =>
      if attr.path == "http_status" then
        match attr.parseArgsIdent with
        | some ident => ident
        | none => acc
      else acc)
    "InternalServerError"

/-- The arm generated for one variant
(`src/actix_error_proc_macros/src/lib.rs:107-116`). -/
def mkArm (tr : Option String) (v : VariantM) : Arm :=
  { variantName := v.name
    shape := v.fields
    statusIdent := http_method v
    transformer := tr }

/-- Transformer extraction from one `actix_error` attribute
(`src/actix_error_proc_macros/src/lib.rs:77-91`): the attribute's
arguments must parse as `Meta::NameValue` with path `transformer` and a
string-literal value; any other outcome yields no transformer. -/
def parseTransformerAttr (attr : AttrM) : Option String :=
  match attr.parseArgsMeta with
  | some (SynMeta.nameValue p v) =>
      if p == "transformer" then
        match v with
        | ExprM.lit (LitM.str s) => some s
        | _ => none
      else none
  | _ => none

/-- The transformer configured on an enum: the first `actix_error`
attribute's parse, if any. -/
def configuredTransformer (input : DeriveInputEnum) : Option String :=
  (input.attrs.filter (fun a => a.path == "actix_error")).head?.bind
    parseTransformerAttr

/-- Panic message of `src/actix_error_proc_macros/src/lib.rs:74`. -/
def exclusiveMsg : String :=
  "The `actix_error` attribute is exclusive, only one can exist at the same time."

/-- The `derive_actix_error` macro
(`src/actix_error_proc_macros/src/lib.rs:59-128`), restricted to enum
inputs: reject more than one `actix_error` attribute, otherwise emit one
arm per variant, each arm using the configured transformer if present. -/
def derive_actix_error (input : DeriveInputEnum) : Except String GeneratedImpl :=
  let transformers := input.attrs.filter (fun a => a.path == "actix_error")
  if transformers.length > 1 then
    Except.error exclusiveMsg
  else
    Except.ok
      { enumName := input.name
        arms := input.variants.map (mkArm (configuredTransformer input)) }

/-- A runtime HTTP response: builder identifier it was built from
(standing for the status code), headers and body. -/
structure HttpResponse where
  status : String
  headers : List (String × String)
  body : String
deriving DecidableEq

/-- A runtime value of the error enum: the variant it was built with and
the payload carried by its fields (opaque strings). -/
structure ErrorInstance where
  variantName : String
  payload : List String
deriving DecidableEq

/-- Whether a generated pattern matches a runtime instance: the patterns
`Self::V(..)`, `Self::V { .. }` and `Self::V` each match exactly the
instances of variant `V`, binding no payload field. -/
def armPatternMatches (a : Arm) (e : ErrorInstance) : Bool :=
  match a.shape with
  | FieldsShape.unnamed => a.variantName == e.variantName
  | FieldsShape.named => a.variantName == e.variantName
  | FieldsShape.unit => a.variantName == e.variantName

/-- Runtime meaning of one arm body
(`src/actix_error_proc_macros/src/lib.rs:113-116`), given an environment
`env` resolving transformer names to functions of the response builder
and the display string, and the display string `fmt` of the matched
instance: a transformer arm returns the transformer's value verbatim, a
default arm attaches the display string as the body. -/
def armSemantics (env : String → String → String → HttpResponse)
    (fmt : String) (a : Arm) : HttpResponse :=
  match a.transformer with
  | some tr => env tr a.statusIdent fmt
  | none => { status := a.statusIdent, headers := [], body := fmt }

/-- Runtime meaning of the generated match
(`src/actix_error_proc_macros/src/lib.rs:119-127`): the first arm whose
pattern matches the instance is taken; `disp` is the external
`format!` display rendering of the instance. -/
def runInto (arms : List Arm) (env : String → String → String → HttpResponse)
    (disp : ErrorInstance → String) (e : ErrorInstance) : Option HttpResponse :=
  (arms.find? (fun a => armPatternMatches a e)).map (armSemantics env (disp e))

/-- Identifier-parseable `http_status` tags of a variant, in attribute
order. -/
def statusTags (v : VariantM) : List String :=
  v.attrs.filterMap
    (fun a => if a.path == "http_status" then a.parseArgsIdent else none)

/-- Modelled from the spec: the numeric status classes of the external
response-builder collaborator for the builder identifiers this
repository uses; the spec fixes the default as the server-fault class
analogous to HTTP 500. -/
def actixStatusCode : String → Option Nat
  | "InternalServerError" => some 500
  | "BadRequest" => some 400
  | "Unauthorized" => some 401
  | "ImATeapot" => some 418
  | _ => none

/-- The call expression handed to `proof_route` as its attribute
argument, e.g. `post("/users")` (`syn::ExprCall`): callee and argument
list. -/
structure ExprCallM where
  func : ExprM
  args : List ExprM
deriving DecidableEq

/-- A typed function parameter (`syn::PatType`): its attributes, binding
pattern and type, both kept opaque as strings. -/
structure PatTypeM where
  attrs : List AttrM
  pat : String
  ty : String
deriving DecidableEq

/-- A function argument (`syn::FnArg`): a receiver or a typed
parameter. -/
inductive FnArgM
  | receiver
  | typed (p : PatTypeM)
deriving DecidableEq

/-- The handler item handed to `proof_route`: its name and its argument
list in declaration order. -/
structure ItemFnM where
  name : String
  inputs : List FnArgM
deriving DecidableEq

/-- The HTTP method tokens accepted by `proof_route`
(`src/actix_error_proc_macros/src/lib.rs:202`). -/
def allowed_methods : List String :=
  ["get", "put", "post", "delete", "patch", "options", "trace"]

/-- Validation of the `proof_route` attribute argument
(`src/actix_error_proc_macros/src/lib.rs:202-232`), in source order:
the callee must be a path whose token is an allowed method, the first
argument must exist and be a string literal, and there must be no
second argument.  Each `panic!` becomes `Except.error` with its
message. -/
def parseRouteArgs (args : ExprCallM) : Except String (String × String) :=
  match args.func with
  | ExprM.path method =>
      if allowed_methods.contains method then
        match args.args.head? with
        | some (ExprM.lit (LitM.str path)) =>
            if args.args.length > 1 then
              Except.error "Expected only one argument."
            else
              Except.ok (method, path)
        | some _ => Except.error "Expected a string literal argument."
        | none => Except.error "Expected at least one argument."
      else
        Except.error "The method is not a valid HTTP method."
  | _ => Except.error "Expected a path."

/-- Result of `attr.parse_args::<Expr>().expect("Expected an enum
variant.")` on an `or` attribute: a parse failure is the panic. -/
def orParsed : Option ExprM → Except String ExprM
  | none => Except.error "Expected an enum variant."
  | some e => Except.ok e

/-- The attribute-stripping pass `proof_route` runs over one typed
parameter's attribute list (`src/actix_error_proc_macros/src/lib.rs:
242-253`): `Vec::retain` walks the attributes in order while the
closure mutates `error_variant`; every `or` attribute stores its parsed
argument (panicking if the parse fails), and an attribute is kept
exactly when `error_variant` is still unset after visiting it.  Returns
the final `error_variant` and the retained attributes. -/
def processAttrs : Option ExprM → List AttrM → Except String (Option ExprM × List AttrM)
  | ev, [] => Except.ok (ev, [])
  | ev, a :: rest =>
      if a.path == "or" then
        (orParsed a.parseArgsExpr).bind (fun e => processAttrs (some e) rest)
      else if ev.isNone then
        (processAttrs ev rest).map (fun r => (r.1, a :: r.2))
      else
        processAttrs ev rest

/-- One extraction step of the generated dispatch unit: binding name,
type, the attributes left on the inner function's parameter, and the
override expression interpolated into the failure branch, if any. -/
structure GeneratedParam where
  pat : String
  ty : String
  keptAttrs : List AttrM
  overrideErr : Option ExprM
deriving DecidableEq

/-- The parameter loop of `proof_route`
(`src/actix_error_proc_macros/src/lib.rs:237-270`): receivers are
skipped, each typed parameter has its attributes processed by
`processAttrs` and contributes one extraction step, in declaration
order. -/
def processInputs : List FnArgM → Except String (List GeneratedParam)
  | [] => Except.ok []
  | FnArgM.receiver :: rest => processInputs rest
  | FnArgM.typed p :: rest =>
      (processAttrs none p.attrs).bind (fun r =>
        (processInputs rest).map (fun ps =>
          { pat := p.pat, ty := p.ty, keptAttrs := r.2, overrideErr := r.1 } :: ps))

/-- The dispatch unit emitted by `proof_route`
(`src/actix_error_proc_macros/src/lib.rs:272-285`): registered method
and path, the public entry name, the renamed inner handler name, and
the ordered extraction steps. -/
structure GeneratedRoute where
  method : String
  path : String
  originalName : String
  renamedName : String
  params : List GeneratedParam
deriving DecidableEq

/-- The `proof_route` macro (`src/actix_error_proc_macros/src/lib.rs:
191-286`): validate the attribute argument, rename the handler, process
the parameters, and emit the dispatch unit. -/
def proof_route (attr : ExprCallM) (item : ItemFnM) : Except String GeneratedRoute :=
  (parseRouteArgs attr).bind (fun mp =>
    (processInputs item.inputs).map (fun params =>
      { method := mp.1
        path := mp.2
        originalName := item.name
        renamedName := "__proof_route_" ++ item.name
        params := params }))

/-- Observable outcome of one run of the generated dispatch unit: which
extraction steps were attempted (by parameter position, in order),
the argument list the business handler was invoked with (`none` when it
was never invoked), and the HTTP response returned. -/
structure RouteTrace (α : Type) where
  attempted : List Nat
  handlerArgs : Option (List α)
  response : HttpResponse
deriving DecidableEq

/-- Response returned by a failing extraction step
(`src/actix_error_proc_macros/src/lib.rs:255-259`): with an override,
`Err(_) => return #error.into()` discards the extraction error and
renders the override expression; without one, `Err(err) => return
err.into()` renders the extraction error itself. -/
def failResponse {ε : Type} (ovInto : ExprM → HttpResponse)
    (errInto : ε → HttpResponse) (p : GeneratedParam) (e : ε) : HttpResponse :=
  match p.overrideErr with
  | some ex => ovInto ex
  | none => errInto e

/-- Response returned once the handler has run
(`src/actix_error_proc_macros/src/lib.rs:280-283`): an `Ok` payload is
returned unchanged, an `Err` is rendered through its `Into`
conversion. -/
def handlerResponse {α β : Type} (domErrInto : β → HttpResponse)
    (handler : List α → Except β HttpResponse) (vals : List α) : HttpResponse :=
  match handler vals with
  | Except.ok r => r
  | Except.error e => domErrInto e

/-- Runtime semantics of the generated extraction pipeline
(`src/actix_error_proc_macros/src/lib.rs:261-284`) from step `start`
with values `bound` already extracted: `extract` gives each step's
outcome from the request context, `ovInto` renders override
expressions, `errInto` renders extraction errors, and the business
handler runs only when every step succeeded. -/
def runRouteFrom {α ε β : Type} (ovInto : ExprM → HttpResponse)
    (errInto : ε → HttpResponse) (domErrInto : β → HttpResponse)
    (handler : List α → Except β HttpResponse) (extract : Nat → Except ε α) :
    List GeneratedParam → Nat → List α → RouteTrace α
  | [], _start, bound =>
      { attempted := []
        handlerArgs := some bound
        response := handlerResponse domErrInto handler bound }
  | p :: rest, start, bound =>
      match extract start with
      | Except.ok v =>
          let t := runRouteFrom ovInto errInto domErrInto handler extract
            rest (start + 1) (bound ++ [v])
          { t with attempted := start :: t.attempted }
      | Except.error e =>
          { attempted := [start]
            handlerArgs := none
            response := failResponse ovInto errInto p e }

/-- One full run of a generated dispatch unit over its parameter
list. -/
def runRoute {α ε β : Type} (ovInto : ExprM → HttpResponse)
    (errInto : ε → HttpResponse) (domErrInto : β → HttpResponse)
    (handler : List α → Except β HttpResponse) (extract : Nat → Except ε α)
    (params : List GeneratedParam) : RouteTrace α :=
  runRouteFrom ovInto errInto domErrInto handler extract params 0 []

/-! ### Helper lemmas -/

/-- Inversion of a successful `derive_actix_error` run. -/
theorem derive_ok_inv {input : DeriveInputEnum} {gen : GeneratedImpl}
    (h : derive_actix_error input = Except.ok gen) :
    gen = { enumName := input.name
            arms := input.variants.map (mkArm (configuredTransformer input)) } := by
  simp only [derive_actix_error] at h
  split at h
  · cases h
  · injection h with h
    exact h.symm

/-- Every generated pattern matches exactly on the variant name. -/
theorem armPatternMatches_eq (a : Arm) (e : ErrorInstance) :
    armPatternMatches a e = (a.variantName == e.variantName) := by
  unfold armPatternMatches
  cases a.shape <;> rfl

/-- A list containing an element satisfying the predicate has a
successful `find?`. -/
theorem find?_isSome_of_mem {α : Type} {p : α → Bool} {l : List α} {a : α}
    (ha : a ∈ l) (hp : p a = true) : (l.find? p).isSome = true := by
  induction l with
  | nil => cases ha
  | cons b rest ih =>
      cases ha with
      | head => rw [List.find?_cons_of_pos _ hp]; rfl
      | tail _ hmem =>
          by_cases hb : p b = true
          · rw [List.find?_cons_of_pos _ hb]; rfl
          · rw [List.find?_cons_of_neg _ (by simpa using hb)]
            exact ih hmem

/-- The `http_status` fold computes the last parseable tag, defaulting
to the accumulator. -/
theorem http_method_foldl (l : List AttrM) (acc : String) :
    l.foldl
      (fun acc attr =>
        if attr.path == "http_status" then
          match attr.parseArgsIdent with
          | some ident => ident
          | none => acc
        else acc)
      acc
    = (l.filterMap
        (fun a => if a.path == "http_status" then a.parseArgsIdent else none)).getLastD acc := by
  induction l generalizing acc with
  | nil => rfl
  | cons a rest ih =>
      by_cases hp : (a.path == "http_status") = true
      · cases hi : a.parseArgsIdent with
        | none =>
            have hg : List.filterMap
                (fun a => if a.path == "http_status" then a.parseArgsIdent else none)
                (a :: rest)
              = List.filterMap
                (fun a => if a.path == "http_status" then a.parseArgsIdent else none)
                rest := by
              rw [List.filterMap_cons, if_pos hp, hi]
            have hf : (if a.path == "http_status" then
                match a.parseArgsIdent with
                | some ident => ident
                | none => acc
              else acc) = acc := by
              rw [if_pos hp, hi]
            rw [List.foldl_cons, hf, hg]
            exact ih acc
        | some ident =>
            have hg : List.filterMap
                (fun a => if a.path == "http_status" then a.parseArgsIdent else none)
                (a :: rest)
              = ident :: List.filterMap
                (fun a => if a.path == "http_status" then a.parseArgsIdent else none)
                rest := by
              rw [List.filterMap_cons, if_pos hp, hi]
            have hf : (if a.path == "http_status" then
                match a.parseArgsIdent with
                | some ident => ident
                | none => acc
              else acc) = ident := by
              rw [if_pos hp, hi]
            rw [List.foldl_cons, hf, hg, List.getLastD_cons]
            exact ih ident
      · have hg : List.filterMap
            (fun a => if a.path == "http_status" then a.parseArgsIdent else none)
            (a :: rest)
          = List.filterMap
            (fun a => if a.path == "http_status" then a.parseArgsIdent else none)
            rest := by
          rw [List.filterMap_cons, if_neg hp]
        have hf : (if a.path == "http_status" then
            match a.parseArgsIdent with
            | some ident => ident
            | none => acc
          else acc) = acc := by
          rw [if_neg hp]
        rw [List.foldl_cons, hf, hg]
        exact ih acc

/-- The status identifier of a variant is its last parseable
`http_status` tag, defaulting to `InternalServerError`. -/
theorem http_method_eq_statusTags (v : VariantM) :
    http_method v = (statusTags v).getLastD "InternalServerError" :=
  http_method_foldl v.attrs _

/-! ### Concrete inputs used by the witnesses -/

/-- The enum of `src/actix_error_proc_macros/tests/with_transformer.rs`:
one unit variant and a transformer attribute. -/
def testErrorTrInput : DeriveInputEnum :=
  { name := "TestError"
    attrs := [{ path := "actix_error"
                parseArgsMeta := some (SynMeta.nameValue "transformer"
                  (ExprM.lit (LitM.str "transformer"))) }]
    variants := [{ name := "Test", attrs := [], fields := FieldsShape.unit }] }

/-- The implementation generated for `testErrorTrInput`. -/
def testErrorTrGen : GeneratedImpl :=
  { enumName := "TestError"
    arms := [{ variantName := "Test"
               shape := FieldsShape.unit
               statusIdent := "InternalServerError"
               transformer := some "transformer" }] }

/-- A three-variant enum in the style of the crate's tests: two tagged
variants and one untagged, with all three field shapes. -/
def testErrorInput2 : DeriveInputEnum :=
  { name := "TestError"
    attrs := []
    variants :=
      [ { name := "Test"
          attrs := [{ path := "http_status", parseArgsIdent := some "BadRequest" }]
          fields := FieldsShape.unit }
      , { name := "Test2"
          attrs := [{ path := "http_status", parseArgsIdent := some "Unauthorized" }]
          fields := FieldsShape.unnamed }
      , { name := "Test3", attrs := [], fields := FieldsShape.named } ] }

/-- The implementation generated for `testErrorInput2`. -/
def testErrorGen2 : GeneratedImpl :=
  { enumName := "TestError"
    arms :=
      [ { variantName := "Test"
          shape := FieldsShape.unit
          statusIdent := "BadRequest"
          transformer := none }
      , { variantName := "Test2"
          shape := FieldsShape.unnamed
          statusIdent := "Unauthorized"
          transformer := none }
      , { variantName := "Test3"
          shape := FieldsShape.named
          statusIdent := "InternalServerError"
          transformer := none } ] }

/-- A transformer environment used in witnesses, mirroring the test
transformer: header from the display string, fixed body. -/
def cEnv : String → String → String → HttpResponse :=
  fun tr st fmt => { status := st, headers := [("format", fmt), ("fn", tr)], body := "no" }

/-- Display rendering used in witnesses. -/
def cDisp : ErrorInstance → String := fun e => e.variantName

/-- Instance of the `Test` variant. -/
def cInstTest : ErrorInstance := { variantName := "Test", payload := [] }

/-- Instance of the `Test3` variant, carrying a payload. -/
def cInstTest3 : ErrorInstance := { variantName := "Test3", payload := ["x"] }

/-- The untagged variant of `testErrorInput2`. -/
def cVariantTest3 : VariantM := { name := "Test3", attrs := [], fields := FieldsShape.named }

/-- A malformed transformer attribute: the value is a path, not a string
literal. -/
def badTrAttr : AttrM :=
  { path := "actix_error"
    parseArgsMeta := some (SynMeta.nameValue "transformer" (ExprM.path "transformer")) }

/-- An enum carrying the malformed transformer attribute. -/
def badTrInput : DeriveInputEnum :=
  { name := "TestError"
    attrs := [badTrAttr]
    variants := [{ name := "Test", attrs := [], fields := FieldsShape.unit }] }

/-! ### Claims about `derive_actix_error` -/

/-- C3: when a transformer is configured, every generated arm calls the
transformer, and the conversion's value on any instance is exactly the
transformer's return value on the dispatched arm's response builder and
the display string — the default body-attaching logic runs for no
variant. -/
theorem derive_transformer_total (input : DeriveInputEnum) (gen : GeneratedImpl)
    (tr : String) (h : derive_actix_error input = Except.ok gen)
    (htr : configuredTransformer input = some tr) :
    (∀ a ∈ gen.arms, a.transformer = some tr) ∧
    (∀ env disp e, runInto gen.arms env disp e =
        (gen.arms.find? (fun a => armPatternMatches a e)).map
          (fun a => env tr a.statusIdent (disp e))) := by
  have hg := derive_ok_inv h
  subst hg
  simp only [htr]
  constructor
  · intro a ha
    simp only [List.mem_map] at ha
    obtain ⟨v, _, rfl⟩ := ha
    rfl
  · intro env disp e
    unfold runInto
    cases hfind : List.find? (fun a => armPatternMatches a e)
        (input.variants.map (mkArm (some tr))) with
    | none => rfl
    | some a =>
        have ha := List.mem_of_find?_eq_some hfind
        simp only [List.mem_map] at ha
        obtain ⟨v, _, rfl⟩ := ha
        simp [armSemantics, mkArm]

/-- C3 witness: the transformer enum of the crate's tests, evaluated on
a concrete instance. -/
theorem derive_transformer_total_witness :
    runInto testErrorTrGen.arms cEnv cDisp cInstTest =
      (testErrorTrGen.arms.find? (fun a => armPatternMatches a cInstTest)).map
        (fun a => cEnv "transformer" a.statusIdent (cDisp cInstTest)) :=
  (derive_transformer_total testErrorTrInput testErrorTrGen "transformer" rfl rfl).2
    cEnv cDisp cInstTest

/-- C4: the generated match has exactly one arm per declared variant, in
order, covering unit, tuple and named-field shapes alike; which arm is
chosen depends only on the instance's variant discriminant, and every
instance of a declared variant is matched by some arm. -/
theorem derive_match_exhaustive (input : DeriveInputEnum) (gen : GeneratedImpl)
    (h : derive_actix_error input = Except.ok gen) :
    gen.arms.length = input.variants.length ∧
    gen.arms.map Arm.variantName = input.variants.map VariantM.name ∧
    gen.arms.map Arm.shape = input.variants.map VariantM.fields ∧
    (∀ e1 e2 : ErrorInstance, e1.variantName = e2.variantName →
        gen.arms.find? (fun a => armPatternMatches a e1) =
          gen.arms.find? (fun a => armPatternMatches a e2)) ∧
    (∀ env disp e, e.variantName ∈ input.variants.map VariantM.name →
        (runInto gen.arms env disp e).isSome = true) := by
  have hg := derive_ok_inv h
  subst hg
  refine ⟨by simp, by simp [List.map_map, mkArm, Function.comp], ?_, ?_, ?_⟩
  · simp [List.map_map, mkArm, Function.comp]
  · intro e1 e2 he
    simp only [armPatternMatches_eq, he]
  · intro env disp e he
    simp only [List.mem_map] at he
    obtain ⟨v, hv, hname⟩ := he
    have harm := List.mem_map_of_mem (mkArm (configuredTransformer input)) hv
    have hmatch : armPatternMatches (mkArm (configuredTransformer input) v) e = true := by
      rw [armPatternMatches_eq]
      simp [mkArm, hname]
    have hsome := @find?_isSome_of_mem Arm (fun a => armPatternMatches a e)
      (input.variants.map (mkArm (configuredTransformer input)))
      (mkArm (configuredTransformer input) v) harm hmatch
    unfold runInto
    cases hfind : List.find? (fun a => armPatternMatches a e)
        (input.variants.map (mkArm (configuredTransformer input))) with
    | none => rw [hfind] at hsome; cases hsome
    | some a => rfl

/-- C4 witness: the three-shape enum, with exhaustiveness evaluated on a
named-field instance. -/
theorem derive_match_exhaustive_witness :
    (runInto testErrorGen2.arms cEnv cDisp cInstTest3).isSome = true :=
  (derive_match_exhaustive testErrorInput2 testErrorGen2 rfl).2.2.2.2
    cEnv cDisp cInstTest3 (by decide)

/-- C5: the generated arms use each variant's computed status builder;
a variant with no `http_status` attribute gets the fixed default
`InternalServerError`, whose numeric class is 500, and a variant with
exactly one parseable `http_status` tag gets that tag. -/
theorem derive_default_status (input : DeriveInputEnum) (gen : GeneratedImpl)
    (h : derive_actix_error input = Except.ok gen) :
    gen.arms.map Arm.statusIdent = input.variants.map http_method ∧
    (∀ v : VariantM, (∀ a ∈ v.attrs, (a.path == "http_status") = false) →
        http_method v = "InternalServerError") ∧
    actixStatusCode "InternalServerError" = some 500 ∧
    (∀ v s, statusTags v = [s] → http_method v = s) := by
  have hg := derive_ok_inv h
  subst hg
  refine ⟨by simp [List.map_map, mkArm, Function.comp], ?_, rfl, ?_⟩
  · intro v hv
    rw [http_method_eq_statusTags]
    have hnil : statusTags v = [] := by
      unfold statusTags
      rw [List.filterMap_eq_nil_iff]
      intro a ha
      simp [hv a ha]
    rw [hnil]
    rfl
  · intro v s hs
    rw [http_method_eq_statusTags, hs]
    rfl

/-- C5 witness: the untagged named-field variant of the test enum gets
the default status. -/
theorem derive_default_status_witness :
    http_method cVariantTest3 = "InternalServerError" :=
  (derive_default_status testErrorInput2 testErrorGen2 rfl).2.1 cVariantTest3 (by decide)

/-- C6: `derive_actix_error` fails with the exclusivity panic exactly
when more than one `actix_error` attribute is present on the enum. -/
theorem derive_transformer_exclusive (input : DeriveInputEnum) :
    derive_actix_error input = Except.error exclusiveMsg ↔
      1 < (input.attrs.filter (fun a => a.path == "actix_error")).length := by
  simp only [derive_actix_error]
  by_cases hl : (input.attrs.filter (fun a => a.path == "actix_error")).length > 1
  · simp [hl]
  · simp [hl]

/-- C8: the generated conversion is deterministic: on equal error
instances, with the display rendering and transformer environment being
functions, two runs produce the same status and the same body. -/
theorem derive_into_deterministic (input : DeriveInputEnum) (gen : GeneratedImpl)
    (h : derive_actix_error input = Except.ok gen)
    (env : String → String → String → HttpResponse) (disp : ErrorInstance → String)
    (e1 e2 : ErrorInstance) (he : e1 = e2) :
    (runInto gen.arms env disp e1).map HttpResponse.status =
      (runInto gen.arms env disp e2).map HttpResponse.status ∧
    (runInto gen.arms env disp e1).map HttpResponse.body =
      (runInto gen.arms env disp e2).map HttpResponse.body := by
  subst he
  exact ⟨rfl, rfl⟩

/-- C8 witness: two runs on the same instance of the transformer test
enum. -/
theorem derive_into_deterministic_witness :
    (runInto testErrorTrGen.arms cEnv cDisp cInstTest).map HttpResponse.status =
      (runInto testErrorTrGen.arms cEnv cDisp cInstTest).map HttpResponse.status ∧
    (runInto testErrorTrGen.arms cEnv cDisp cInstTest).map HttpResponse.body =
      (runInto testErrorTrGen.arms cEnv cDisp cInstTest).map HttpResponse.body :=
  derive_into_deterministic testErrorTrInput testErrorTrGen rfl cEnv cDisp
    cInstTest cInstTest rfl

/-- C10: a single `actix_error` attribute that does not parse as
`transformer = "<string literal>"` is silently ignored: the derive
succeeds and every variant gets the default, transformer-free
rendering. -/
theorem derive_malformed_actix_error_ignored (input : DeriveInputEnum) (attr : AttrM)
    (hone : input.attrs.filter (fun a => a.path == "actix_error") = [attr])
    (hbad : ∀ s, attr.parseArgsMeta ≠
        some (SynMeta.nameValue "transformer" (ExprM.lit (LitM.str s)))) :
    derive_actix_error input =
      Except.ok { enumName := input.name, arms := input.variants.map (mkArm none) } := by
  have htr : configuredTransformer input = none := by
    unfold configuredTransformer
    rw [hone]
    simp only [List.head?_cons, Option.some_bind]
    cases hm : attr.parseArgsMeta with
    | none => simp [parseTransformerAttr, hm]
    | some m =>
        cases m with
        | pathMeta p => simp [parseTransformerAttr, hm]
        | listMeta p => simp [parseTransformerAttr, hm]
        | nameValue p v =>
            by_cases hp : (p == "transformer") = true
            · cases v with
              | path s => simp [parseTransformerAttr, hm, hp]
              | otherExpr => simp [parseTransformerAttr, hm, hp]
              | lit l =>
                  cases l with
                  | otherLit => simp [parseTransformerAttr, hm, hp]
                  | str s =>
                      have hpe : p = "transformer" := by simpa using hp
                      subst hpe
                      exact absurd hm (hbad s)
            · simp [parseTransformerAttr, hm, hp]
  simp only [derive_actix_error, hone, htr]
  rfl

/-- C10 witness: a `transformer = transformer` attribute whose value is
a path rather than a string literal is ignored. -/
theorem derive_malformed_actix_error_ignored_witness :
    derive_actix_error badTrInput =
      Except.ok { enumName := badTrInput.name
                  arms := badTrInput.variants.map (mkArm none) } :=
  derive_malformed_actix_error_ignored badTrInput badTrAttr rfl
    (by intro s hs; simp [badTrAttr] at hs)

/-! ### Route-side helper lemmas -/

/-- The head of a nonempty list prepended to its `getLastD` tail gives
the `getLast?`. -/
theorem getLast?_cons_eq_getLastD {α : Type} (a : α) (l : List α) :
    (a :: l).getLast? = some (l.getLastD a) := by
  induction l generalizing a with
  | nil => rfl
  | cons b rest ih => rw [List.getLast?_cons_cons, ih, List.getLastD_cons]

/-- Unfolding `processAttrs` over an `or` attribute whose argument
parses: the attribute is dropped and the override is replaced. -/
theorem processAttrs_cons_or {ev : Option ExprM} {a : AttrM} {l : List AttrM}
    {e2 : ExprM} (hp : (a.path == "or") = true) (he : a.parseArgsExpr = some e2) :
    processAttrs ev (a :: l) = processAttrs (some e2) l := by
  conv_lhs => unfold processAttrs
  rw [if_pos hp, he]
  rfl

/-- Unfolding `processAttrs` over a non-`or` attribute while no `or` has
been seen: the attribute is kept. -/
theorem processAttrs_cons_keep {a : AttrM} {l : List AttrM}
    (hp : (a.path == "or") = false) :
    processAttrs none (a :: l) =
      (processAttrs none l).map (fun r => (r.1, a :: r.2)) := by
  conv_lhs => unfold processAttrs
  rw [if_neg (by simp [hp])]
  rfl

/-- Unfolding `processAttrs` over a non-`or` attribute after an `or` has
been seen: the attribute is dropped. -/
theorem processAttrs_cons_drop {e : ExprM} {a : AttrM} {l : List AttrM}
    (hp : (a.path == "or") = false) :
    processAttrs (some e) (a :: l) = processAttrs (some e) l := by
  conv_lhs => unfold processAttrs
  rw [if_neg (by simp [hp])]
  rfl

/-- Once an override is recorded, `processAttrs` drops every remaining
attribute and keeps the last parsed `or` argument. -/
theorem processAttrs_some (l : List AttrM) (e : ExprM)
    (h : ∀ a ∈ l, a.path = "or" → a.parseArgsExpr.isSome = true) :
    processAttrs (some e) l =
      Except.ok
        (some ((l.filterMap
            (fun a => if a.path == "or" then a.parseArgsExpr else none)).getLastD e),
          []) := by
  induction l generalizing e with
  | nil => rfl
  | cons a rest ih =>
      by_cases hp : (a.path == "or") = true
      · have hpe : a.path = "or" := by simpa using hp
        have hs := h a (List.mem_cons_self a rest) hpe
        cases he : a.parseArgsExpr with
        | none => rw [he] at hs; cases hs
        | some e2 =>
            have hg : List.filterMap
                (fun a => if a.path == "or" then a.parseArgsExpr else none) (a :: rest)
              = e2 :: List.filterMap
                (fun a => if a.path == "or" then a.parseArgsExpr else none) rest := by
              rw [List.filterMap_cons, if_pos hp, he]
            rw [processAttrs_cons_or hp he, hg, List.getLastD_cons]
            exact ih e2 (fun b hb hb2 => h b (List.mem_cons_of_mem a hb) hb2)
      · have hpf : (a.path == "or") = false := by
          cases hb : (a.path == "or") with
          | true => exact absurd hb hp
          | false => rfl
        have hg : List.filterMap
            (fun a => if a.path == "or" then a.parseArgsExpr else none) (a :: rest)
          = List.filterMap
            (fun a => if a.path == "or" then a.parseArgsExpr else none) rest := by
          rw [List.filterMap_cons, if_neg (by simp [hpf])]
        rw [processAttrs_cons_drop hpf, hg]
        exact ih e (fun b hb hb2 => h b (List.mem_cons_of_mem a hb) hb2)

/-- When the first `i` extractions succeed and extraction `i` fails, the
pipeline attempts exactly steps `start .. start+i`, never invokes the
handler, and answers with the failing step's failure response. -/
theorem runRouteFrom_fail {α ε β : Type} (ovInto : ExprM → HttpResponse)
    (errInto : ε → HttpResponse) (domErrInto : β → HttpResponse)
    (handler : List α → Except β HttpResponse) (extract : Nat → Except ε α)
    (ps : List GeneratedParam) (start : Nat) (bound : List α) (i : Nat) (e : ε)
    (hi : i < ps.length)
    (hok : ∀ j, j < i → ∃ v, extract (start + j) = Except.ok v)
    (hfail : extract (start + i) = Except.error e) :
    runRouteFrom ovInto errInto domErrInto handler extract ps start bound =
      { attempted := List.range' start (i + 1)
        handlerArgs := none
        response := failResponse ovInto errInto ps[i] e } := by
  induction ps generalizing start bound i with
  | nil => exact absurd hi (Nat.not_lt_zero i)
  | cons p rest ih =>
      cases i with
      | zero =>
          rw [Nat.add_zero] at hfail
          simp [runRouteFrom, hfail, List.range']
      | succ n =>
          obtain ⟨v, hv⟩ := hok 0 (Nat.succ_pos n)
          rw [Nat.add_zero] at hv
          have hn : n < rest.length := by
            simp only [List.length_cons] at hi
            omega
          have hrec := ih (start + 1) (bound ++ [v]) n hn
            (fun j hj => by
              obtain ⟨w, hw⟩ := hok (j + 1) (Nat.succ_lt_succ hj)
              refine ⟨w, ?_⟩
              rw [show start + 1 + j = start + (j + 1) by omega]
              exact hw)
            (by rw [show start + 1 + n = start + (n + 1) by omega]; exact hfail)
          simp [runRouteFrom, hv, hrec, List.range'_succ]

/-- When every extraction succeeds, the pipeline attempts all steps in
order and invokes the handler on the extracted values in declaration
order. -/
theorem runRouteFrom_allok {α ε β : Type} (ovInto : ExprM → HttpResponse)
    (errInto : ε → HttpResponse) (domErrInto : β → HttpResponse)
    (handler : List α → Except β HttpResponse) (extract : Nat → Except ε α)
    (ps : List GeneratedParam) (start : Nat) (bound : List α) (vs : Nat → α)
    (hok : ∀ j, j < ps.length → extract (start + j) = Except.ok (vs (start + j))) :
    runRouteFrom ovInto errInto domErrInto handler extract ps start bound =
      { attempted := List.range' start ps.length
        handlerArgs := some (bound ++ (List.range' start ps.length).map vs)
        response := handlerResponse domErrInto handler
          (bound ++ (List.range' start ps.length).map vs) } := by
  induction ps generalizing start bound with
  | nil => simp [runRouteFrom, List.range']
  | cons p rest ih =>
      have h0 := hok 0 (by simp)
      rw [Nat.add_zero] at h0
      have hrec := ih (start + 1) (bound ++ [vs start])
        (fun j hj => by
          have hh := hok (j + 1) (by simp only [List.length_cons]; omega)
          rw [show start + (j + 1) = start + 1 + j by omega] at hh
          exact hh)
      simp [runRouteFrom, h0, hrec, List.range'_succ]

/-! ### Claims about `proof_route` -/

/-- C1: when extraction of parameter `i` fails first, the dispatch unit
answers with the override expression's `Into` conversion if the
parameter carried an `#[or(...)]` override (the extraction failure `e`
is discarded: the answer does not depend on it), and with the
extraction failure's own `Into` conversion otherwise. -/
theorem proof_route_override_precedence {α ε β : Type}
    (attr : ExprCallM) (item : ItemFnM) (gr : GeneratedRoute)
    (hgr : proof_route attr item = Except.ok gr)
    (ovInto : ExprM → HttpResponse) (errInto : ε → HttpResponse)
    (domErrInto : β → HttpResponse) (handler : List α → Except β HttpResponse)
    (extract : Nat → Except ε α) (i : Nat) (e : ε)
    (hi : i < gr.params.length)
    (hok : ∀ j, j < i → ∃ v, extract j = Except.ok v)
    (hfail : extract i = Except.error e) :
    (runRoute ovInto errInto domErrInto handler extract gr.params).response =
      match gr.params[i].overrideErr with
      | some ex => ovInto ex
      | none => errInto e := by
  unfold runRoute
  rw [runRouteFrom_fail ovInto errInto domErrInto handler extract gr.params 0 [] i e hi
    (fun j hj => by simpa using hok j hj)
    (by simpa using hfail)]
  rfl

/-- C2: extraction is attempted strictly in declaration order: the first
failure at position `i` means exactly positions `0 .. i` were attempted,
no later position is ever attempted and the handler is never invoked;
when every extraction succeeds, the handler is invoked with the
extracted values in declaration order. -/
theorem proof_route_ordered_extraction {α ε β : Type}
    (attr : ExprCallM) (item : ItemFnM) (gr : GeneratedRoute)
    (hgr : proof_route attr item = Except.ok gr)
    (ovInto : ExprM → HttpResponse) (errInto : ε → HttpResponse)
    (domErrInto : β → HttpResponse) (handler : List α → Except β HttpResponse)
    (extract : Nat → Except ε α) :
    (∀ i e, i < gr.params.length →
        (∀ j, j < i → ∃ v, extract j = Except.ok v) →
        extract i = Except.error e →
        (runRoute ovInto errInto domErrInto handler extract gr.params).attempted =
            List.range (i + 1) ∧
        (runRoute ovInto errInto domErrInto handler extract gr.params).handlerArgs =
            none ∧
        (∀ j, i < j →
            j ∉ (runRoute ovInto errInto domErrInto handler extract
                  gr.params).attempted)) ∧
    (∀ vs : Nat → α, (∀ j, j < gr.params.length → extract j = Except.ok (vs j)) →
        (runRoute ovInto errInto domErrInto handler extract gr.params).handlerArgs =
            some ((List.range gr.params.length).map vs) ∧
        (runRoute ovInto errInto domErrInto handler extract gr.params).response =
            handlerResponse domErrInto handler
              ((List.range gr.params.length).map vs)) := by
  constructor
  · intro i e hi hok hfail
    unfold runRoute
    rw [runRouteFrom_fail ovInto errInto domErrInto handler extract gr.params 0 [] i e hi
      (fun j hj => by simpa using hok j hj)
      (by simpa using hfail)]
    refine ⟨by rw [List.range_eq_range'], rfl, ?_⟩
    intro j hj
    rw [← List.range_eq_range']
    simp only [List.mem_range]
    omega
  · intro vs hok
    unfold runRoute
    rw [runRouteFrom_allok ovInto errInto domErrInto handler extract gr.params 0 [] vs
      (fun j hj => by simpa using hok j hj)]
    rw [← List.range_eq_range']
    exact ⟨by simp, by simp⟩

/-! ### Concrete routes used by the route witnesses -/

/-- The route attribute argument `post("/")`. -/
def cAttrPost : ExprCallM :=
  { func := ExprM.path "post", args := [ExprM.lit (LitM.str "/")] }

/-- An `#[or(TestError::Collect)]` attribute. -/
def cOrAttr : AttrM :=
  { path := "or", parseArgsExpr := some (ExprM.path "TestError::Collect") }

/-- The single-parameter handler of
`src/actix_error_proc_macros/tests/with_collectors.rs`, with its
override attribute. -/
def cItemOne : ItemFnM :=
  { name := "test_route"
    inputs := [FnArgM.typed { attrs := [cOrAttr], pat := "user", ty := "Json<User>" }] }

/-- The dispatch unit generated for `cItemOne`. -/
def cGrOne : GeneratedRoute :=
  { method := "post"
    path := "/"
    originalName := "test_route"
    renamedName := "__proof_route_test_route"
    params := [{ pat := "user", ty := "Json<User>", keptAttrs := []
                 overrideErr := some (ExprM.path "TestError::Collect") }] }

/-- A three-parameter handler with an override on the middle
parameter. -/
def cItemThree : ItemFnM :=
  { name := "test3_route"
    inputs :=
      [ FnArgM.typed { attrs := [], pat := "a", ty := "Path<u32>" }
      , FnArgM.typed { attrs := [cOrAttr], pat := "b", ty := "Json<User>" }
      , FnArgM.typed { attrs := [], pat := "c", ty := "Bytes" } ] }

/-- The dispatch unit generated for `cItemThree`. -/
def cGrThree : GeneratedRoute :=
  { method := "post"
    path := "/"
    originalName := "test3_route"
    renamedName := "__proof_route_test3_route"
    params :=
      [ { pat := "a", ty := "Path<u32>", keptAttrs := [], overrideErr := none }
      , { pat := "b", ty := "Json<User>", keptAttrs := []
          overrideErr := some (ExprM.path "TestError::Collect") }
      , { pat := "c", ty := "Bytes", keptAttrs := [], overrideErr := none } ] }

/-- Override rendering used in witnesses: the teapot response of the
collector test. -/
def cOvInto : ExprM → HttpResponse :=
  fun _ => { status := "ImATeapot", headers := [], body := "test_collect" }

/-- Extraction-error rendering used in witnesses. -/
def cErrInto : Nat → HttpResponse :=
  fun _ => { status := "BadRequest", headers := [], body := "" }

/-- Handler used in witnesses. -/
def cHandler : List Nat → Except Nat HttpResponse :=
  fun _ => Except.ok { status := "Ok", headers := [], body := "" }

/-- Request context in which every extraction fails. -/
def cExtractFail : Nat → Except Nat Nat := fun _ => Except.error 7

/-- Request context in which extraction of parameter 1 fails and every
other parameter extracts to its own index. -/
def cExtractMid : Nat → Except Nat Nat :=
  fun j => if j == 1 then Except.error 9 else Except.ok j

/-- C1 witness: the collector-test route with a failing extraction
answers with the override's conversion. -/
theorem proof_route_override_precedence_witness :
    (runRoute cOvInto cErrInto cErrInto cHandler cExtractFail cGrOne.params).response =
      cOvInto (ExprM.path "TestError::Collect") := by
  have h := proof_route_override_precedence cAttrPost cItemOne cGrOne rfl
    cOvInto cErrInto cErrInto cHandler cExtractFail 0 7 (by decide)
    (fun j hj => absurd hj (by omega)) rfl
  simpa using h

/-- C2 witness: with the middle of three parameters failing, exactly the
first two extractions are attempted and the handler never runs. -/
theorem proof_route_ordered_extraction_witness :
    (runRoute cOvInto cErrInto cErrInto cHandler cExtractMid cGrThree.params).attempted =
      List.range 2 ∧
    (runRoute cOvInto cErrInto cErrInto cHandler cExtractMid cGrThree.params).handlerArgs =
      none := by
  have h := (proof_route_ordered_extraction cAttrPost cItemThree cGrThree rfl
    cOvInto cErrInto cErrInto cHandler cExtractMid).1 1 9 (by decide)
    (fun j hj => by
      refine ⟨j, ?_⟩
      interval_cases j
      rfl)
    rfl
  exact ⟨h.1, h.2.1⟩

/-- Inversion of a successful route-argument validation: the callee is a
path carrying an allowed method token and the argument list is exactly
one string literal. -/
theorem parseRouteArgs_ok_inv {attr : ExprCallM} {mp : String × String}
    (h : parseRouteArgs attr = Except.ok mp) :
    attr.func = ExprM.path mp.1 ∧ allowed_methods.contains mp.1 = true ∧
    attr.args = [ExprM.lit (LitM.str mp.2)] := by
  cases hf : attr.func with
  | lit l => simp [parseRouteArgs, hf] at h
  | otherExpr => simp [parseRouteArgs, hf] at h
  | path s =>
      simp only [parseRouteArgs, hf] at h
      by_cases hc : allowed_methods.contains s = true
      · rw [if_pos hc] at h
        cases ha : attr.args with
        | nil => simp [ha] at h
        | cons a rest =>
            cases a with
            | path q => simp [ha] at h
            | otherExpr => simp [ha] at h
            | lit l =>
                cases l with
                | otherLit => simp [ha] at h
                | str p =>
                    rw [ha] at h
                    simp only [List.head?_cons] at h
                    by_cases hl : (ExprM.lit (LitM.str p) :: rest).length > 1
                    · rw [if_pos hl] at h
                      cases h
                    · rw [if_neg hl] at h
                      injection h with h
                      subst h
                      have hrest : rest = [] := by
                        cases rest with
                        | nil => rfl
                        | cons r rs => exact absurd (by simp) hl
                      subst hrest
                      exact ⟨rfl, hc, rfl⟩
      · rw [if_neg hc] at h
        cases h

/-- C7: an invalid `proof_route` attribute — a method token outside the
allowed set (or a callee that is not a path), an empty argument list, a
first argument that is not a string literal, or more than one argument —
makes the macro fail, emitting no dispatch unit. -/
theorem proof_route_rejects_invalid (attr : ExprCallM) (item : ItemFnM)
    (h : (∀ s, attr.func = ExprM.path s → allowed_methods.contains s = false) ∨
         attr.args = [] ∨
         (∃ a rest, attr.args = a :: rest ∧ ∀ p, a ≠ ExprM.lit (LitM.str p)) ∨
         1 < attr.args.length) :
    (proof_route attr item).isOk = false := by
  cases hp : proof_route attr item with
  | error msg => rfl
  | ok gr =>
      exfalso
      have hex : ∃ mp, parseRouteArgs attr = Except.ok mp := by
        unfold proof_route at hp
        cases hq : parseRouteArgs attr with
        | error m => rw [hq] at hp; simp [Except.bind] at hp
        | ok mp => exact ⟨mp, rfl⟩
      obtain ⟨mp, hmp⟩ := hex
      obtain ⟨h1, h2, h3⟩ := parseRouteArgs_ok_inv hmp
      rcases h with h | h | h | h
      · rw [h mp.1 h1] at h2
        cases h2
      · rw [h] at h3
        cases h3
      · obtain ⟨a, rest, heq, hnl⟩ := h
        rw [h3] at heq
        injection heq with ha1 ha2
        exact hnl mp.2 ha1.symm
      · rw [h3] at h
        simp at h

/-- An invalid route attribute: two arguments instead of one. -/
def cBadAttr : ExprCallM :=
  { func := ExprM.path "post"
    args := [ExprM.lit (LitM.str "/"), ExprM.lit (LitM.str "/x")] }

/-- C7 witness: a two-argument attribute is rejected. -/
theorem proof_route_rejects_invalid_witness :
    (proof_route cBadAttr cItemOne).isOk = false :=
  proof_route_rejects_invalid cBadAttr cItemOne
    (Or.inr (Or.inr (Or.inr (by decide))))

/-- C9: over one parameter's attribute list (with every `or` attribute
parseable), the attribute-stripping pass keeps exactly the attributes
strictly before the first `or` attribute, drops the first `or` and
everything after it — `or` or not — and records the last `or`
argument as the override; a parameter with no `or` attribute keeps its
whole list.  The inner function emitted by `proof_route` carries exactly
the kept attributes. -/
theorem proof_route_or_attr_stripping (l : List AttrM)
    (h : ∀ a ∈ l, a.path = "or" → a.parseArgsExpr.isSome = true) :
    processAttrs none l =
      Except.ok
        ((l.filterMap
            (fun a => if a.path == "or" then a.parseArgsExpr else none)).getLast?,
          l.takeWhile (fun a => !(a.path == "or"))) ∧
    (∀ (p : PatTypeM) (rest : List FnArgM) (ps : List GeneratedParam),
        p.attrs = l →
        processInputs (FnArgM.typed p :: rest) = Except.ok ps →
        ps.head?.map GeneratedParam.keptAttrs =
          some (l.takeWhile (fun a => !(a.path == "or")))) := by
  have main : processAttrs none l =
      Except.ok
        ((l.filterMap
            (fun a => if a.path == "or" then a.parseArgsExpr else none)).getLast?,
          l.takeWhile (fun a => !(a.path == "or"))) := by
    induction l with
    | nil => rfl
    | cons a restA ih =>
        by_cases hp : (a.path == "or") = true
        · have hpe : a.path = "or" := by simpa using hp
          have hs := h a (List.mem_cons_self a restA) hpe
          cases he : a.parseArgsExpr with
          | none => rw [he] at hs; cases hs
          | some e2 =>
              have hg : List.filterMap
                  (fun a => if a.path == "or" then a.parseArgsExpr else none)
                  (a :: restA)
                = e2 :: List.filterMap
                  (fun a => if a.path == "or" then a.parseArgsExpr else none)
                  restA := by
                rw [List.filterMap_cons, if_pos hp, he]
              have ht : List.takeWhile (fun a => !(a.path == "or")) (a :: restA)
                  = [] := by
                simp [List.takeWhile_cons, hp]
              rw [processAttrs_cons_or hp he,
                processAttrs_some restA e2
                  (fun b hb hb2 => h b (List.mem_cons_of_mem a hb) hb2),
                hg, getLast?_cons_eq_getLastD, ht]
        · have hpf : (a.path == "or") = false := by
            cases hb : (a.path == "or") with
            | true => exact absurd hb hp
            | false => rfl
          have hg : List.filterMap
              (fun a => if a.path == "or" then a.parseArgsExpr else none)
              (a :: restA)
            = List.filterMap
              (fun a => if a.path == "or" then a.parseArgsExpr else none)
              restA := by
            rw [List.filterMap_cons, if_neg (by simp [hpf])]
          have ht : List.takeWhile (fun a => !(a.path == "or")) (a :: restA)
              = a :: List.takeWhile (fun a => !(a.path == "or")) restA := by
            simp [List.takeWhile_cons, hpf]
          rw [processAttrs_cons_keep hpf,
            ih (fun b hb hb2 => h b (List.mem_cons_of_mem a hb) hb2), hg, ht]
          rfl
  refine ⟨main, ?_⟩
  intro p rest ps hpa hps
  unfold processInputs at hps
  rw [hpa, main] at hps
  cases hr : processInputs rest with
  | error m => rw [hr] at hps; simp [Except.bind, Except.map] at hps
  | ok ps2 =>
      rw [hr] at hps
      injection hps with hps
      subst hps
      rfl

/-- An inert attribute kept by the stripping pass. -/
def cAttrA : AttrM := { path := "allow" }

/-- Another inert attribute, listed after the first `or`. -/
def cAttrB : AttrM := { path := "serde" }

/-- A second `or` attribute with a different argument. -/
def cOrAttr2 : AttrM :=
  { path := "or", parseArgsExpr := some (ExprM.path "TestError::Other") }

/-- A mixed attribute list: inert, `or`, inert, `or`. -/
def cAttrList : List AttrM := [cAttrA, cOrAttr, cAttrB, cOrAttr2]

/-- C9 witness: on the mixed list only the leading inert attribute is
kept. -/
theorem proof_route_or_attr_stripping_witness :
    processAttrs none cAttrList =
      Except.ok
        ((cAttrList.filterMap
            (fun a => if a.path == "or" then a.parseArgsExpr else none)).getLast?,
          cAttrList.takeWhile (fun a => !(a.path == "or"))) :=
  (proof_route_or_attr_stripping cAttrList (by decide)).1
